import Mathlib

/-!
Verification of the multi-threaded FTP client/server core.

The development shallowly embeds the server sources:
* the upload receive loop, download streaming and the command handlers of
  `client_handler.cpp` (`handle_put`, `handle_get`, `handle_mkdir`,
  `handle_delete`, `handle_cd`, `handle_ls`, `handle_pwd`,
  `execute_command`, `handle_client`);
* the cancellation listener `handle_terminate_requests` of
  `myftpserver.cpp` together with the process-wide `active_commands` map;
* the `ThreadPool` of `thread_pool.cpp` (constructor, `enqueue`, `worker`,
  destructor), as a labelled transition system whose atomic steps are the
  critical sections guarded by `queue_mutex`.

Bytes are modelled as `Nat`, byte strings as `List Nat`, text as `String`.
The Filesystem Gateway (an external collaborator: `stat`, `mkdir`, `remove`,
`chdir`, `opendir`, `getcwd` and the stream constructors) is modelled as an
oracle state `OS`: a flat path → entry map for `stat`-style queries plus
success flags for the calls that can fail independently of the map, and
oracle fields for `getcwd`/`readdir` results.  Handlers additionally return
the list of gateway calls they perform, so "no gateway call is made" is
expressible.
-/

namespace MyFtp

/-- Boolean prefix test on lists; used to model `std::string::find`. -/
def isPre [BEq α] : List α → List α → Bool
  | [], _ => true
  | _ :: _, [] => false
  | a :: as, b :: bs => a == b && isPre as bs

/-- Index of the first occurrence of `pat`, `none` when absent.
Models `std::string::find` (which returns `npos` when absent). -/
def subFind [BEq α] (pat : List α) : List α → Option Nat
  | [] => if isPre pat ([] : List α) then some 0 else none
  | b :: bs => if isPre pat (b :: bs) then some 0 else (subFind pat bs).map (· + 1)

/-- Concatenation of a list of chunks: the byte stream they carry. -/
def catAll (ls : List (List Nat)) : List Nat := ls.foldr (· ++ ·) []

/-- The terminator `"FILE_TRANSFER_END\n"` as bytes. -/
def marker : List Nat :=
  [70, 73, 76, 69, 95, 84, 82, 65, 78, 83, 70, 69, 82, 95, 69, 78, 68, 10]

/-- The receive loop of the server's `handle_put` (client_handler.cpp,
lines 137–156).  The second argument is the `leftover_data` buffer at the
head of the loop.  Each received chunk is appended to the buffer, the buffer
is searched for `marker`; on a hit the prefix before the marker is written
to the destination file and the loop stops with the buffer still holding the
data; on a miss the whole buffer is written to the file and then cleared.
When the chunk list is exhausted (modelling `recv` returning `<= 0`), the
loop exits with whatever the buffer holds; the code then reports success iff
`leftover_data` is non-empty.  Returns (bytes written to the destination
file, success flag). -/
def putGo : List (List Nat) → List Nat → List Nat × Bool
  | [], leftover => ([], !leftover.isEmpty)
  | c :: cs, leftover =>
    let buf := leftover ++ c
    match subFind marker buf with
    | some p => (buf.take p, true)
    | none =>
      let r := putGo cs []
      (buf ++ r.1, r.2)

/-- Claim C1 as stated: whenever the terminator occurs somewhere in the
byte stream delivered to the upload loop, the loop finds it (the buffer is
claimed to be append-only across the whole sub-protocol). -/
def ClaimC1Prop : Prop :=
  ∀ cs : List (List Nat), subFind marker (catAll cs) ≠ none → (putGo cs []).2 = true

/-- Claim C1, evaluated at a stream whose two chunks split the terminator:
the stream as a whole is exactly the terminator, yet the loop writes all 18
marker bytes into the destination file and never detects the terminator
(the transfer is reported failed when the peer closes).  The buffer is
cleared after every chunk in which no marker is found, so the search is
per-chunk, not against an append-only buffer. -/
theorem put_marker_split_across_chunks_missed :
    (putGo [marker.take 14, marker.drop 14] []).1 = marker ∧
    (putGo [marker.take 14, marker.drop 14] []).2 = false ∧
    subFind marker (catAll [marker.take 14, marker.drop 14]) = some 0 := by
  decide

/-- The chunking used to refute the round-trip claim C2: the two upload
bytes 104 105 ("hi") followed by the terminator, with the terminator split
across the two receive chunks. -/
def c2chunks : List (List Nat) := [[104, 105] ++ marker.take 14, marker.drop 14]

/-- Claim C2, evaluated at a marker-free file content `[104, 105]` and a
chunking of the upload stream that splits the terminator: the server stores
`[104, 105] ++ marker` (20 bytes) instead of the 2-byte content and reports
the transfer failed, so downloading the stored file cannot return the
original content. -/
theorem put_roundtrip_fails_on_split_marker :
    (putGo c2chunks []).1 = [104, 105] ++ marker ∧
    (putGo c2chunks []).2 = false ∧
    (putGo c2chunks []).1 ≠ [104, 105] := by
  decide

/-- A filesystem entry as seen through `stat`: a directory or a regular
file with its byte content. -/
inductive Entry where
  | dir : Entry
  | file : List Nat → Entry
deriving DecidableEq

/-- A call into the Filesystem Gateway (the external collaborator), recorded
by the handler models so that "no gateway call is made" is expressible. -/
inductive GCall where
  | statP : String → GCall
  | mkdirP : String → GCall
  | removeP : String → GCall
  | chdirP : String → GCall
  | openReadP : String → GCall
  | createWriteP : String → GCall
  | opendirP : GCall
  | getcwdP : GCall
deriving DecidableEq

/-- One message written to the client socket: a text line (produced by
`send_response`) or a raw binary chunk (produced by plain `send` during a
download). -/
inductive Msg where
  | line : String → Msg
  | raw : List Nat → Msg
deriving DecidableEq

/-- Oracle state of the external OS / Filesystem Gateway: the path → entry
map consulted by `stat`, per-call success flags for the operations that can
fail independently of that map (permissions, parent directories, ...), and
the results `getcwd` / `opendir`+`readdir` would deliver. -/
structure OS where
  fs : List (String × Entry)
  chdirOk : Bool
  mkdirOk : Bool
  removeOk : Bool
  openReadOk : Bool
  createWriteOk : Bool
  cwd : Option String
  dirEntries : Option (List String)
deriving DecidableEq

/-- `stat` on the oracle map: the entry stored at an exact path. -/
def lookupEntry : List (String × Entry) → String → Option Entry
  | [], _ => none
  | (q, e) :: rest, p => if q = p then some e else lookupEntry rest p

/-- Removal of a path from the oracle map (the effect of `remove`). -/
def fsErase (fs : List (String × Entry)) (p : String) : List (String × Entry) :=
  fs.filter (fun q => q.1 ≠ p)

/-- `send_response(sock, status, message)`: the line `status ++ ": " ++ message ++ "\n"`. -/
def stLine (status msg : String) : String := status ++ ": " ++ msg ++ "\n"

/-- `send_response(sock, message)`: the bare line `message ++ "\n"`. -/
def bareLine (msg : String) : String := msg ++ "\n"

/-- `handle_cd` (client_handler.cpp, lines 278–301): empty argument check,
`stat`, directory check, `chdir`.  Note the success branch answers with the
one-argument `send_response`, i.e. the bare line `"Directory changed.\n"`. -/
def handle_cd (d : String) (os : OS) : List Msg × List GCall × OS :=
  if d = "" then ([.line (stLine "ERROR" "Directory not specified.")], [], os)
  else
    match lookupEntry os.fs d with
    | none => ([.line (stLine "ERROR" "Directory not found.")], [.statP d], os)
    | some (.file _) =>
      ([.line (stLine "ERROR" "Specified path is not a directory.")], [.statP d], os)
    | some .dir =>
      if os.chdirOk then
        ([.line (bareLine "Directory changed.")], [.statP d, .chdirP d], os)
      else
        ([.line (stLine "ERROR" "Unable to change directory.")], [.statP d, .chdirP d], os)

/-- `handle_mkdir` (client_handler.cpp, lines 215–237): empty argument
check, `stat` (directory vs same-named file), `mkdir`.  A successful
`mkdir` records the new directory in the oracle map. -/
def handle_mkdir (d : String) (os : OS) : List Msg × List GCall × OS :=
  if d = "" then ([.line (stLine "ERROR" "Directory name not specified.")], [], os)
  else
    match lookupEntry os.fs d with
    | some .dir => ([.line (stLine "ERROR" "Directory already exists.")], [.statP d], os)
    | some (.file _) =>
      ([.line (stLine "ERROR" "A file with the same name exists.")], [.statP d], os)
    | none =>
      if os.mkdirOk then
        ([.line (stLine "SUCCESS" "Directory created successfully.")], [.statP d, .mkdirP d],
          { os with fs := (d, .dir) :: os.fs })
      else
        ([.line (stLine "ERROR" "Unable to create directory.")], [.statP d, .mkdirP d], os)

/-- `handle_delete` (client_handler.cpp, lines 246–269): empty argument
check, `stat` + directory check, `file_exists` (a second `stat`), `remove`. -/
def handle_delete (f : String) (os : OS) : List Msg × List GCall × OS :=
  if f = "" then ([.line (stLine "ERROR" "File name not specified.")], [], os)
  else
    match lookupEntry os.fs f with
    | some .dir =>
      ([.line (stLine "ERROR" "Specified path is a directory, not a file.")], [.statP f], os)
    | some (.file _) =>
      if os.removeOk then
        ([.line (stLine "SUCCESS" "File deleted.")], [.statP f, .statP f, .removeP f],
          { os with fs := fsErase os.fs f })
      else
        ([.line (stLine "ERROR" "Unable to delete file.")], [.statP f, .statP f, .removeP f], os)
    | none =>
      ([.line (stLine "ERROR" "404 - File not found.")], [.statP f, .statP f], os)

/-- `handle_get` (client_handler.cpp, lines 174–206): empty argument check,
`file_exists`, open for reading, then `SUCCESS: FILE_TRANSFER_START`, the
raw bytes (sent in `BUFFER_SIZE` pieces; chunk boundaries carry no wire
meaning, so the raw bytes are modelled as one blob), and the terminator
line.  Opening a directory yields no bytes from the read loop. -/
def handle_get (f : String) (os : OS) : List Msg × List GCall × OS :=
  if f = "" then ([.line (stLine "ERROR" "File name not specified.")], [], os)
  else
    match lookupEntry os.fs f with
    | none => ([.line (stLine "ERROR" "404 - File not found.")], [.statP f], os)
    | some e =>
      if os.openReadOk then
        ([.line (stLine "SUCCESS" "FILE_TRANSFER_START"),
          .raw (match e with | .file c => c | .dir => []),
          .line (bareLine "FILE_TRANSFER_END")], [.statP f, .openReadP f], os)
      else
        ([.line (stLine "ERROR" "Unable to open file.")], [.statP f, .openReadP f], os)

/-- `handle_put` (client_handler.cpp, lines 123–165): empty argument check,
`ofstream` creation (the `create_write_stream` gateway call), the ready
line, the receive loop `putGo` over the incoming chunk stream, and the
final status line.  The destination file holds whatever the loop wrote,
also when the transfer is reported failed. -/
def handle_put (f : String) (chunks : List (List Nat)) (os : OS) :
    List Msg × List GCall × OS :=
  if f = "" then ([.line (stLine "ERROR" "File name not specified.")], [], os)
  else if !os.createWriteOk then
    ([.line (stLine "ERROR" "Unable to create file.")], [.createWriteP f], os)
  else
    let r := putGo chunks []
    ([.line (stLine "SUCCESS" "READY_TO_RECEIVE"),
      .line (if r.2 then stLine "SUCCESS" "File transfer completed."
             else stLine "ERROR" "File transfer failed.")],
     [.createWriteP f], { os with fs := (f, .file r.1) :: os.fs })

/-- `handle_ls` (client_handler.cpp, lines 309–335): `opendir`, `readdir`
skipping "." and "..", then either "Directory is empty." or the listing as
one bare message. -/
def handle_ls (os : OS) : List Msg × List GCall × OS :=
  match os.dirEntries with
  | none => ([.line (stLine "ERROR" "Unable to open directory.")], [.opendirP], os)
  | some es =>
    let fl := String.join ((es.filter (fun n => n ≠ "." && n ≠ "..")).map (fun n => n ++ "\n"))
    if fl = "" then ([.line (bareLine "Directory is empty.")], [.opendirP], os)
    else ([.line (bareLine fl)], [.opendirP], os)

/-- `handle_pwd` (client_handler.cpp, lines 343–351): `getcwd`, then the
bare path line or an error line. -/
def handle_pwd (os : OS) : List Msg × List GCall × OS :=
  match os.cwd with
  | some s => ([.line (bareLine s)], [.getcwdP], os)
  | none => ([.line (stLine "ERROR" "Unable to retrieve current directory.")], [.getcwdP], os)

/-- The whitespace set of `trim` in client_handler.cpp: `" \t\n\r"`. -/
def isWS (c : Char) : Bool := c = ' ' || c = '\t' || c = '\n' || c = '\r'

/-- `trim` (client_handler.cpp, lines 110–114): the substring between the
first and last character not in `" \t\n\r"`, empty when none exists. -/
def trimL (s : List Char) : List Char :=
  ((s.dropWhile isWS).reverse.dropWhile isWS).reverse

/-- The command/argument split of `execute_command` (client_handler.cpp,
lines 404–406): the token before the first `' '`, and the trimmed remainder
after it (empty when there is no space). -/
def splitCmd (c : List Char) : List Char × List Char :=
  let cmd := c.takeWhile (fun ch => ch ≠ ' ')
  if cmd.length = c.length then (cmd, [])
  else (cmd, trimL (c.drop (cmd.length + 1)))

/-- `execute_command` (client_handler.cpp, lines 399–415): case-sensitive
exact lookup of the command token in the command map built by
`create_command_map`, falling through to `ERROR: Invalid command.`.  The
`chunks` argument is the byte stream a `put` sub-protocol would consume. -/
def executeCommand (line : List Char) (chunks : List (List Nat)) (os : OS) :
    List Msg × List GCall × OS :=
  let p := splitCmd line
  let cmd := String.mk p.1
  let arg := String.mk p.2
  if cmd = "pwd" then handle_pwd os
  else if cmd = "ls" then handle_ls os
  else if cmd = "cd" then handle_cd arg os
  else if cmd = "mkdir" then handle_mkdir arg os
  else if cmd = "delete" then handle_delete arg os
  else if cmd = "get" then handle_get arg os
  else if cmd = "put" then handle_put arg chunks os
  else ([.line (stLine "ERROR" "Invalid command.")], [], os)

/-- One iteration of the `handle_client` loop (client_handler.cpp, lines
428–450) on a received line: trim it; when the result is empty send the
empty response line; when it is `quit` stop the session; otherwise (and —
as the code is written — also after the empty-line response, since there is
no `continue`) dispatch through `execute_command`.  Returns (messages sent,
new oracle state, whether the session continues). -/
def sessionStep (raw : List Char) (chunks : List (List Nat)) (os : OS) :
    List Msg × OS × Bool :=
  let c := trimL raw
  let pre : List Msg := if c = [] then [.line (bareLine "")] else []
  if String.mk c = "quit" then (pre, os, false)
  else
    let r := executeCommand c chunks os
    (pre ++ r.1, r.2.2, true)

/-- A fresh oracle state: empty map, all calls succeed, no cwd/listing
oracle. -/
def osA : OS := ⟨[], true, true, true, true, true, none, none⟩

/-- Claim C6, evaluated at the failing input: a received line that is empty
after trimming.  The session sends the empty response line and then — the
`if (command.empty())` block has no `continue` — falls through into
`execute_command("")`, which answers `ERROR: Invalid command.`.  Two
messages are sent where the spec requires exactly the lone `"\n"`. -/
theorem empty_line_also_gets_invalid_command :
    sessionStep ['\n'] [] osA =
      ([Msg.line "\n", Msg.line "ERROR: Invalid command.\n"], osA, true) := by
  decide

/-- A single STATUS-shaped response: exactly one text line, starting with
`"SUCCESS: "` or `"ERROR: "` and ending with a newline. -/
def statusShapedLine (s : String) : Bool :=
  (isPre "SUCCESS: ".toList s.toList || isPre "ERROR: ".toList s.toList) &&
    isPre ['\n'] s.toList.reverse

/-- The handler produced exactly one STATUS-prefixed line. -/
def singleStatus (r : List Msg × List GCall × OS) : Prop :=
  ∃ m, r.1 = [Msg.line m] ∧ statusShapedLine m = true

/-- Claim C5 as stated: every invocation of the recognized text commands
other than `get`/`put`/`ls`/`pwd` — that is `cd`, `mkdir` and `delete` —
produces exactly one `SUCCESS: ...\n` or `ERROR: ...\n` line. -/
def ClaimC5Prop : Prop :=
  ∀ (os : OS) (arg : String),
    singleStatus (handle_cd arg os) ∧
    singleStatus (handle_mkdir arg os) ∧
    singleStatus (handle_delete arg os)

/-- An oracle state holding one directory `"d"`, used to exercise the
successful `cd` branch. -/
def osDir : OS := ⟨[("d", .dir)], true, true, true, true, true, none, none⟩

/-- Claim C5 is false on the code: a successful `cd` goes through the
one-argument `send_response` overload and answers the bare line
`"Directory changed.\n"`, which carries no STATUS prefix. -/
theorem cd_success_sends_bare_line : ¬ ClaimC5Prop := by
  intro h
  obtain ⟨m, hm, hs⟩ := (h osDir "d").1
  have hval : (handle_cd "d" osDir).1 = [Msg.line "Directory changed.\n"] := by decide
  rw [hval] at hm
  have hm2 : "Directory changed.\n" = m := by
    simpa using hm
  rw [← hm2] at hs
  exact absurd hs (by decide)

/-- Claim C5 amended: `mkdir` and `delete` always produce exactly one
STATUS-prefixed line; `cd` produces exactly one line, STATUS-prefixed in
every branch except success, where it is the bare `"Directory changed.\n"`. -/
theorem text_commands_single_status_line (os : OS) (arg : String) :
    singleStatus (handle_mkdir arg os) ∧
    singleStatus (handle_delete arg os) ∧
    (if arg ≠ "" ∧ lookupEntry os.fs arg = some .dir ∧ os.chdirOk = true
     then (handle_cd arg os).1 = [Msg.line "Directory changed.\n"]
     else singleStatus (handle_cd arg os)) := by
  refine ⟨?_, ?_, ?_⟩
  · by_cases harg : arg = ""
    · subst harg
      exact ⟨_, rfl, by decide⟩
    · rcases hl : lookupEntry os.fs arg with _ | e
      · cases hmk : os.mkdirOk
        · exact ⟨stLine "ERROR" "Unable to create directory.",
            by simp [handle_mkdir, harg, hl, hmk], by decide⟩
        · exact ⟨stLine "SUCCESS" "Directory created successfully.",
            by simp [handle_mkdir, harg, hl, hmk], by decide⟩
      · cases e
        · exact ⟨stLine "ERROR" "Directory already exists.",
            by simp [handle_mkdir, harg, hl], by decide⟩
        · exact ⟨stLine "ERROR" "A file with the same name exists.",
            by simp [handle_mkdir, harg, hl], by decide⟩
  · by_cases harg : arg = ""
    · subst harg
      exact ⟨_, rfl, by decide⟩
    · rcases hl : lookupEntry os.fs arg with _ | e
      · exact ⟨stLine "ERROR" "404 - File not found.",
          by simp [handle_delete, harg, hl], by decide⟩
      · cases e
        · exact ⟨stLine "ERROR" "Specified path is a directory, not a file.",
            by simp [handle_delete, harg, hl], by decide⟩
        · cases hrm : os.removeOk
          · exact ⟨stLine "ERROR" "Unable to delete file.",
              by simp [handle_delete, harg, hl, hrm], by decide⟩
          · exact ⟨stLine "SUCCESS" "File deleted.",
              by simp [handle_delete, harg, hl, hrm], by decide⟩
  · by_cases hc : arg ≠ "" ∧ lookupEntry os.fs arg = some .dir ∧ os.chdirOk = true
    · rw [if_pos hc]
      obtain ⟨h1, h2, h3⟩ := hc
      simp [handle_cd, h1, h2, h3]
      decide
    · rw [if_neg hc]
      by_cases harg : arg = ""
      · subst harg
        exact ⟨_, rfl, by decide⟩
      · rcases hl : lookupEntry os.fs arg with _ | e
        · exact ⟨stLine "ERROR" "Directory not found.",
            by simp [handle_cd, harg, hl], by decide⟩
        · cases e
          · cases hch : os.chdirOk
            · exact ⟨stLine "ERROR" "Unable to change directory.",
                by simp [handle_cd, harg, hl, hch], by decide⟩
            · exact absurd ⟨harg, hl, hch⟩ hc
          · exact ⟨stLine "ERROR" "Specified path is not a directory.",
              by simp [handle_cd, harg, hl], by decide⟩

/-- Claim C7: every argument-taking command (`cd`, `mkdir`, `delete`,
`get`, `put`) invoked with an empty argument answers the single line
`ERROR: <name> not specified.\n`, makes no Filesystem Gateway call, and
leaves the gateway state untouched. -/
theorem empty_argument_no_gateway_call (os : OS) (chunks : List (List Nat)) :
    handle_cd "" os = ([Msg.line "ERROR: Directory not specified.\n"], [], os) ∧
    handle_mkdir "" os = ([Msg.line "ERROR: Directory name not specified.\n"], [], os) ∧
    handle_delete "" os = ([Msg.line "ERROR: File name not specified.\n"], [], os) ∧
    handle_get "" os = ([Msg.line "ERROR: File name not specified.\n"], [], os) ∧
    handle_put "" chunks os = ([Msg.line "ERROR: File name not specified.\n"], [], os) := by
  refine ⟨?_, ?_, ?_, ?_, ?_⟩ <;> rfl

/-- Claim C8 as stated, over nonempty names: for every gateway state, a
second `mkdir d` reports `Directory already exists.` and `delete f` on an
absent `f` reports the 404 error. -/
def ClaimC8Prop : Prop :=
  ∀ (os : OS) (d f : String), d ≠ "" → f ≠ "" → lookupEntry os.fs f = none →
    (handle_mkdir d (handle_mkdir d os).2.2).1 =
      [Msg.line "ERROR: Directory already exists.\n"] ∧
    (handle_delete f os).1 = [Msg.line "ERROR: 404 - File not found.\n"]

/-- An oracle state holding one regular file `"x"`. -/
def osFile : OS := ⟨[("x", .file [])], true, true, true, true, true, none, none⟩

/-- Claim C8 is false on the code when `d` names an existing regular file:
both `mkdir x` calls answer `ERROR: A file with the same name exists.\n`,
which does not report that the directory already exists. -/
theorem second_mkdir_on_existing_file : ¬ ClaimC8Prop := by
  intro h
  have hc := (h osFile "x" "g" (by decide) (by decide) (by decide)).1
  exact absurd hc (by decide)

/-- Claim C8 amended: provided `d` does not name an existing regular file
and the underlying `mkdir` call does not spuriously fail, `mkdir d` twice
reports `Directory already exists.` on the second call; `delete f` on an
absent `f` reports the 404 error. -/
theorem mkdir_twice_then_delete_missing (os : OS) (d f : String)
    (hd : d ≠ "") (hmk : os.mkdirOk = true)
    (hnf : ∀ c, lookupEntry os.fs d ≠ some (Entry.file c))
    (hf : f ≠ "") (hmiss : lookupEntry os.fs f = none) :
    (handle_mkdir d (handle_mkdir d os).2.2).1 =
      [Msg.line "ERROR: Directory already exists.\n"] ∧
    (handle_delete f os).1 = [Msg.line "ERROR: 404 - File not found.\n"] := by
  constructor
  · rcases hl : lookupEntry os.fs d with _ | e
    · simp [handle_mkdir, hd, hl, hmk, lookupEntry]
      decide
    · cases e
      · simp [handle_mkdir, hd, hl]
        decide
      · exact absurd hl (hnf _)
  · simp [handle_delete, hf, hmiss]
    decide

/-- Claim C8 witness: on a fresh gateway state, `mkdir d; mkdir d` yields
the already-exists error on the second call, and `delete g` yields the 404
error. -/
theorem mkdir_twice_then_delete_missing_holds :
    (handle_mkdir "d" (handle_mkdir "d" osA).2.2).1 =
      [Msg.line "ERROR: Directory already exists.\n"] ∧
    (handle_delete "g" osA).1 = [Msg.line "ERROR: 404 - File not found.\n"] :=
  mkdir_twice_then_delete_missing osA "d" "g" (by decide) rfl
    (fun c h => by simp [osA, lookupEntry] at h) (by decide) rfl

/-- The whitespace set skipped by `std::stoi` (C `isspace`): space, `\t`,
`\n`, vertical tab, form feed, `\r`. -/
def isSpaceC (c : Char) : Bool :=
  c = ' ' || c = '\t' || c = '\n' || c = Char.ofNat 11 || c = Char.ofNat 12 || c = '\r'

/-- Value of a digit sequence in base 10. -/
def digitsVal (ds : List Char) : Nat :=
  ds.foldl (fun a c => a * 10 + (c.toNat - 48)) 0

/-- `std::stoi`: skip leading whitespace, optional sign, then a nonempty
run of digits; `none` models a thrown exception — `std::invalid_argument`
when no digits follow, `std::out_of_range` when the value does not fit a
32-bit `int`. -/
def stoiM (s : List Char) : Option Int :=
  let s1 := s.dropWhile isSpaceC
  let sgnRest : Int × List Char :=
    match s1 with
    | '-' :: t => (-1, t)
    | '+' :: t => (1, t)
    | _ => (1, s1)
  let ds := sgnRest.2.takeWhile (fun c => c.isDigit)
  if ds.isEmpty then none
  else
    let v : Int := sgnRest.1 * (digitsVal ds : Nat)
    if v < -(2 ^ 31) ∨ v > 2 ^ 31 - 1 then none else some v

/-- The characters `std::stoi` sees in `handle_terminate_requests`
(myftpserver.cpp, line 67): the received bytes from offset 10 on, cut at
the first NUL (the code null-terminates the buffer and builds a
`std::string` from `buffer + 10`).  Only meaningful for payloads of at
least 10 bytes; a shorter payload makes the C++ read uninitialized stack
memory past the terminator, which has no defined value to embed. -/
def extractTail (payload : List Char) : List Char :=
  (payload.drop 10).takeWhile (fun c => c ≠ Char.ofNat 0)

/-- Per-request body of the cancellation listener `handle_terminate_requests`
(myftpserver.cpp, lines 63–75): parse the command identifier at offset 10
with `std::stoi`; when it is present in `active_commands` set its flag false
and erase it, otherwise do nothing; no response is ever written to the
canceller (the second component is the messages sent, always `[]`).
`none` models the `std::stoi` exception escaping the thread function, which
makes the C++ runtime call `std::terminate` and abort the whole process. -/
def handleTerm (reg : List (Int × Bool)) (payload : List Char) :
    Option (List (Int × Bool) × List String) :=
  match stoiM (extractTail payload) with
  | none => none
  | some cid =>
    if reg.any (fun e => e.1 == cid) then some (reg.filter (fun e => e.1 != cid), [])
    else some (reg, [])

/-- Claim C4 as stated: every payload whose identifier is absent from the
registry — including payloads that do not encode a valid integer at offset
10 — is silently ignored: no crash, no response, registry unchanged. -/
def ClaimC4Prop : Prop :=
  ∀ (reg : List (Int × Bool)) (payload : List Char), 10 ≤ payload.length →
    (∀ cid : Int, stoiM (extractTail payload) = some cid →
      reg.any (fun e => e.1 == cid) = false) →
    handleTerm reg payload = some (reg, [])

/-- Claim C4 is false on the code: the 13-byte payload `"terminate ABC"`
carries no digits at offset 10, `std::stoi` throws, nothing catches the
exception in the listener thread, and the process is terminated (the model
returns `none`, not a silently-ignored request). -/
theorem terminate_request_invalid_id_aborts : ¬ ClaimC4Prop := by
  intro h
  have hnone : stoiM (extractTail "terminate ABC".toList) = none := by decide
  have := h [] "terminate ABC".toList (by decide)
    (fun cid hc => by rw [hnone] at hc; exact Option.noConfusion hc)
  rw [handleTerm, hnone] at this
  exact Option.noConfusion this

/-- Claim C4 amended: a payload that parses to an identifier absent from
the registry is silently ignored — the registry is returned unchanged and
no response is sent.  (A payload that does not parse aborts the process.) -/
theorem terminate_request_absent_id_ignored (reg : List (Int × Bool))
    (payload : List Char) (cid : Int) (_hlen : 10 ≤ payload.length)
    (hp : stoiM (extractTail payload) = some cid)
    (habs : reg.any (fun e => e.1 == cid) = false) :
    handleTerm reg payload = some (reg, []) := by
  simp [handleTerm, hp, habs]

/-- Claim C4 witness: with registry `[(7, true)]` the payload
`"terminate 42"` parses to the absent identifier 42 and is ignored. -/
theorem terminate_request_absent_id_ignored_holds :
    handleTerm [((7 : Int), true)] "terminate 42".toList = some ([((7 : Int), true)], []) :=
  terminate_request_absent_id_ignored [((7 : Int), true)] "terminate 42".toList 42
    (by decide) (by decide) (by decide)

/-- One processed cancellation request seen as a transition of the
process-wide `active_commands` registry.  By inspection of the sources,
`handle_terminate_requests` is the only code that reads or writes
`active_commands`; in particular `execute_command` and the command handlers
never insert an entry when a command begins. -/
def TermStep (r r' : List (Int × Bool)) : Prop :=
  ∃ payload out, handleTerm r payload = some (r', out)

/-- Registry states reachable from process start (`active_commands` starts
empty). -/
def ReachableReg (r : List (Int × Bool)) : Prop :=
  Relation.ReflTransGen TermStep [] r

/-- Claim C10: in every reachable process state the cancellation registry
is empty, and therefore every cancellation request that parses a valid
identifier finds it absent and leaves the registry unchanged, sending
nothing back. -/
theorem registry_always_empty (r : List (Int × Bool)) (h : ReachableReg r) :
    r = [] ∧
    ∀ (payload : List Char) (r' : List (Int × Bool)) (out : List String),
      handleTerm r payload = some (r', out) → r' = r ∧ out = [] := by
  have key : ∀ (p : List Char) (r' : List (Int × Bool)) (out : List String),
      handleTerm [] p = some (r', out) → r' = [] ∧ out = [] := by
    intro p r' out hp
    rcases hst : stoiM (extractTail p) with _ | cid
    · rw [handleTerm, hst] at hp
      exact Option.noConfusion hp
    · rw [handleTerm, hst] at hp
      simp at hp
      exact ⟨hp.1, hp.2⟩
  have hr : r = [] := by
    induction h with
    | refl => rfl
    | tail _ hstep ih =>
      obtain ⟨p, out, hp⟩ := hstep
      rw [ih] at hp
      exact (key p _ out hp).1
  subst hr
  exact ⟨rfl, key⟩

/-- Claim C10 witness: the initial registry is reachable and the theorem
applies to it. -/
theorem registry_always_empty_holds :
    ([] : List (Int × Bool)) = [] ∧
    ∀ (payload : List Char) (r' : List (Int × Bool)) (out : List String),
      handleTerm [] payload = some (r', out) → r' = [] ∧ out = [] :=
  registry_always_empty [] Relation.ReflTransGen.refl

/-- State of the `ThreadPool` (thread_pool.cpp / thread_pool.h): the
`stop` flag, the FIFO `tasks` queue (tasks named by `Nat` identifiers), the
tasks already executed in order, and one liveness bit per worker thread
(`true` = still running its loop, `false` = returned).  `log` is a ghost
append-only record of every task ever enqueued, used to state "exactly K
executions". -/
structure Pool where
  stopFlag : Bool
  queue : List Nat
  execd : List Nat
  workers : List Bool
  log : List Nat
deriving DecidableEq

/-- Atomic transitions of the pool.  Every step is one critical section
guarded by `queue_mutex`, so interleavings of the real threads are exactly
interleavings of these steps:
* `enqueue` — `ThreadPool::enqueue`: push a task and notify (only before
  the destructor runs: in the program the pool is destroyed after its
  clients stop submitting);
* `setStop` — the destructor's first block: set `stop` under the lock,
  then `notify_all`;
* `exec` — one worker iteration that finds the queue non-empty: pop the
  front task and run it (running happens outside the lock and touches no
  pool state, so pop+run is one step here);
* `exit` — one worker iteration that observes `stop` together with an
  empty queue and returns; the destructor's `join` of that worker then
  completes. -/
inductive PStep : Pool → Pool → Prop where
  | enqueue (s : Pool) (t : Nat) (h : s.stopFlag = false) :
      PStep s ⟨s.stopFlag, s.queue ++ [t], s.execd, s.workers, s.log ++ [t]⟩
  | setStop (s : Pool) :
      PStep s ⟨true, s.queue, s.execd, s.workers, s.log⟩
  | exec (s : Pool) (i t : Nat) (rest : List Nat)
      (hw : s.workers.get? i = some true) (hq : s.queue = t :: rest) :
      PStep s ⟨s.stopFlag, rest, s.execd ++ [t], s.workers, s.log⟩
  | exit (s : Pool) (i : Nat) (hw : s.workers.get? i = some true)
      (hs : s.stopFlag = true) (hq : s.queue = []) :
      PStep s ⟨s.stopFlag, s.queue, s.execd, s.workers.set i false, s.log⟩

/-- The pool as the constructor leaves it: not stopping, empty queue, `n`
live workers, nothing executed. -/
def initPool (n : Nat) : Pool := ⟨false, [], [], List.replicate n true, []⟩

/-- Pool states reachable from a fresh pool of `n` workers. -/
def PoolReach (n : Nat) (s : Pool) : Prop :=
  Relation.ReflTransGen PStep (initPool n) s

/-- Every worker thread has returned (the destructor's joins can all
complete). -/
def AllExited (s : Pool) : Prop := ∀ w ∈ s.workers, w = false

/-- Inductive invariant of the pool: the worker count is fixed; executed
tasks followed by queued tasks are exactly the enqueue log in order; before
`stop` every worker is live; and once every worker has returned the queue
is empty (a worker only returns when it sees `stop` with an empty queue,
and nothing is enqueued after `stop`). -/
def PoolInv (n : Nat) (s : Pool) : Prop :=
  s.workers.length = n ∧
  s.execd ++ s.queue = s.log ∧
  (s.stopFlag = false → ∀ w ∈ s.workers, w = true) ∧
  (AllExited s → s.workers ≠ [] → s.queue = [])

theorem memOfGetq : ∀ (l : List Bool) (i : Nat) (a : Bool), l.get? i = some a → a ∈ l
  | [], i, a, h => by simp [List.get?] at h
  | b :: bs, 0, a, h => by
    simp [List.get?] at h
    simp [h]
  | b :: bs, i + 1, a, h => by
    simp only [List.get?] at h
    exact List.mem_cons_of_mem _ (memOfGetq bs i a h)

theorem poolInv_init (n : Nat) : PoolInv n (initPool n) := by
  refine ⟨by simp [initPool], rfl, ?_, ?_⟩
  · intro _ w hw
    simpa using List.eq_of_mem_replicate hw
  · intro _ _
    rfl

theorem poolInv_step {n : Nat} {s s' : Pool} (hinv : PoolInv n s) (hstep : PStep s s') :
    PoolInv n s' := by
  obtain ⟨h1, h2, h3, h4⟩ := hinv
  cases hstep with
  | enqueue t h =>
    refine ⟨h1, ?_, ?_, ?_⟩
    · rw [← List.append_assoc, h2]
    · intro _ w hw
      exact h3 h w hw
    · intro hall hne
      exfalso
      obtain ⟨w, hw⟩ := List.exists_mem_of_ne_nil s.workers hne
      have ht := h3 h w hw
      have hf := hall w hw
      rw [ht] at hf
      exact Bool.noConfusion hf
  | setStop =>
    refine ⟨h1, h2, ?_, ?_⟩
    · intro hfalse
      exact Bool.noConfusion hfalse
    · intro hall hne
      exact h4 hall hne
  | exec i t rest hw hq =>
    refine ⟨h1, ?_, ?_, ?_⟩
    · rw [List.append_assoc]
      show s.execd ++ (t :: rest) = s.log
      rw [← hq]
      exact h2
    · intro h w hmem
      exact h3 h w hmem
    · intro hall _
      exfalso
      have := hall true (memOfGetq s.workers i true hw)
      exact Bool.noConfusion this
  | exit i hw hs hq =>
    refine ⟨?_, h2, ?_, ?_⟩
    · rw [List.length_set]
      exact h1
    · intro hfalse
      rw [hs] at hfalse
      exact Bool.noConfusion hfalse
    · intro _ _
      exact hq

theorem poolInv_reach {n : Nat} {s : Pool} (h : PoolReach n s) : PoolInv n s := by
  induction h with
  | refl => exact poolInv_init n
  | tail _ hstep ih => exact poolInv_step ih hstep

/-- Claim C3 as stated: once the destructor has marked the pool stopping,
no step executes a task any more (queued tasks are dropped without
execution). -/
def ClaimC3Prop : Prop :=
  ∀ (n : Nat) (s s' : Pool), PoolReach n s → s.stopFlag = true → PStep s s' →
    s'.execd = s.execd

/-- Claim C3 is false on the code: from a fresh 1-worker pool, enqueue task
0, let the destructor set `stop`; the worker then wakes, sees `stop` with a
non-empty queue, and — since `worker` only returns when `stop && tasks.empty()`
— pops and executes the queued task after shutdown began. -/
theorem queued_task_executes_after_stop : ¬ ClaimC3Prop := by
  intro h
  have e1 : PStep (initPool 1) ⟨false, [0], [], [true], [0]⟩ :=
    PStep.enqueue (initPool 1) 0 rfl
  have e2 : PStep (⟨false, [0], [], [true], [0]⟩ : Pool) ⟨true, [0], [], [true], [0]⟩ :=
    PStep.setStop _
  have hreach : PoolReach 1 ⟨true, [0], [], [true], [0]⟩ :=
    Relation.ReflTransGen.tail (Relation.ReflTransGen.tail Relation.ReflTransGen.refl e1) e2
  have hstep : PStep (⟨true, [0], [], [true], [0]⟩ : Pool) ⟨true, [], [0], [true], [0]⟩ :=
    PStep.exec _ 0 0 [] rfl rfl
  have hh := h 1 _ _ hreach rfl hstep
  exact absurd hh (by decide)

/-- Claim C3 amended: shutdown marks the pool stopping, wakes every worker
and joins them, but the tasks still queued at shutdown are not dropped:
each worker keeps executing queued tasks and only returns on seeing `stop`
with an empty queue, so when all workers have exited the queue is empty and
the executed tasks are exactly the enqueued tasks, in order. -/
theorem pool_drains_queue_before_exit (n : Nat) (hn : 1 ≤ n) (s : Pool)
    (h : PoolReach n s) (hall : AllExited s) :
    s.queue = [] ∧ s.execd = s.log := by
  obtain ⟨h1, h2, _h3, h4⟩ := poolInv_reach h
  have hne : s.workers ≠ [] := by
    intro he
    rw [he] at h1
    simp at h1
    omega
  have hq : s.queue = [] := h4 hall hne
  refine ⟨hq, ?_⟩
  rw [← h2, hq, List.append_nil]

/-- Claim C3 amended, witness: a complete run of a 1-worker pool with one
task enqueued before shutdown ends with an empty queue and that task
executed. -/
theorem pool_drains_queue_before_exit_holds :
    (⟨true, [], [5], [false], [5]⟩ : Pool).queue = [] ∧
    (⟨true, [], [5], [false], [5]⟩ : Pool).execd = (⟨true, [], [5], [false], [5]⟩ : Pool).log := by
  have e1 : PStep (initPool 1) ⟨false, [5], [], [true], [5]⟩ :=
    PStep.enqueue (initPool 1) 5 rfl
  have e2 : PStep (⟨false, [5], [], [true], [5]⟩ : Pool) ⟨true, [5], [], [true], [5]⟩ :=
    PStep.setStop _
  have e3 : PStep (⟨true, [5], [], [true], [5]⟩ : Pool) ⟨true, [], [5], [true], [5]⟩ :=
    PStep.exec _ 0 5 [] rfl rfl
  have e4 : PStep (⟨true, [], [5], [true], [5]⟩ : Pool) ⟨true, [], [5], [false], [5]⟩ :=
    PStep.exit _ 0 rfl rfl rfl
  have hreach : PoolReach 1 ⟨true, [], [5], [false], [5]⟩ :=
    Relation.ReflTransGen.tail (Relation.ReflTransGen.tail
      (Relation.ReflTransGen.tail (Relation.ReflTransGen.tail Relation.ReflTransGen.refl e1) e2)
      e3) e4
  exact pool_drains_queue_before_exit 1 (by decide) _ hreach
    (by intro w hw; simpa using hw)

/-- Claim C9: a completed run of a pool of `n ≤ K` workers whose enqueue
log holds `K` tasks has performed exactly `K` task executions, and every
worker-exit step happens only in a state where that worker observed `stop`
together with an empty queue. -/
theorem pool_exactly_K_executions (n K : Nat) (hn : 1 ≤ n) (_hnk : n ≤ K) (s : Pool)
    (h : PoolReach n s) (hK : s.log.length = K) (hall : AllExited s) :
    s.execd.length = K ∧
    ∀ u v : Pool, PStep u v → v.workers ≠ u.workers →
      u.stopFlag = true ∧ u.queue = [] := by
  constructor
  · obtain ⟨h1, h2, _h3, h4⟩ := poolInv_reach h
    have hne : s.workers ≠ [] := by
      intro he
      rw [he] at h1
      simp at h1
      omega
    have hq : s.queue = [] := h4 hall hne
    rw [← hK, ← h2, hq, List.append_nil]
  · intro u v hstep hne
    cases hstep with
    | enqueue t h => exact absurd rfl hne
    | setStop => exact absurd rfl hne
    | exec i t rest hw hq => exact absurd rfl hne
    | exit i hw hs hq => exact ⟨hs, hq⟩

/-- Claim C9 witness: a 1-worker pool given one task executes exactly one
task before shutdown completes. -/
theorem pool_exactly_K_executions_holds :
    (⟨true, [], [7], [false], [7]⟩ : Pool).execd.length = 1 ∧
    ∀ u v : Pool, PStep u v → v.workers ≠ u.workers →
      u.stopFlag = true ∧ u.queue = [] := by
  have e1 : PStep (initPool 1) ⟨false, [7], [], [true], [7]⟩ :=
    PStep.enqueue (initPool 1) 7 rfl
  have e2 : PStep (⟨false, [7], [], [true], [7]⟩ : Pool) ⟨true, [7], [], [true], [7]⟩ :=
    PStep.setStop _
  have e3 : PStep (⟨true, [7], [], [true], [7]⟩ : Pool) ⟨true, [], [7], [true], [7]⟩ :=
    PStep.exec _ 0 7 [] rfl rfl
  have e4 : PStep (⟨true, [], [7], [true], [7]⟩ : Pool) ⟨true, [], [7], [false], [7]⟩ :=
    PStep.exit _ 0 rfl rfl rfl
  have hreach : PoolReach 1 ⟨true, [], [7], [false], [7]⟩ :=
    Relation.ReflTransGen.tail (Relation.ReflTransGen.tail
      (Relation.ReflTransGen.tail (Relation.ReflTransGen.tail Relation.ReflTransGen.refl e1) e2)
      e3) e4
  exact pool_exactly_K_executions 1 1 (by decide) (by decide) _ hreach rfl
    (by intro w hw; simpa using hw)

end MyFtp
